import Mathlib

/-!
Verification of the contact-extraction and storage pipeline of the
`bot-python` repository (Telegram beauty-brand bot).

The Python sources embedded here are:
* `src/telegram-bot/utils/helpers.py` — `clean_phone_number`,
  `validate_phone_number`, `validate_email_address`;
* `src/telegram-bot/utils/database.py` — `DatabaseManager.save_brand`,
  `_save_contacts`, `_determine_contact_type`, `_extract_contact_value`;
* `src/telegram-bot/agents/contact_finder_agent.py` —
  `ContactFinderAgent._clean_phone_number` and the grouping part of
  `_parse_contact_results`.

Strings are modelled through their character lists.  Python's `\d`
character class and `str.lower`/`str.strip` are modelled by the ASCII
`Char.isDigit`, `Char.toLower` and whitespace trimming; all inputs in
this domain (phone digits, e-mail addresses, URLs) are ASCII, where the
two coincide.  The third-party validators (`phonenumbers`,
`email_validator`) are not part of the repository; they appear as
explicit oracle parameters of the functions that call them, exactly at
the call sites where the Python code invokes them.
-/

namespace BeautyBot

/-- `startsWithList l p` is Python's `l.startswith(p)` on character lists. -/
def startsWithList : List Char → List Char → Bool
  | _, [] => true
  | [], _ :: _ => false
  | c :: cs, p :: ps => c == p && startsWithList cs ps

/-- `re.sub(r'[^\d+]', '', phone)`: keep only digits and plus signs
(every `+`, not only a leading one). -/
def keepDigitsPlus (l : List Char) : List Char :=
  l.filter (fun c => c.isDigit || c == '+')

/-- The prefix-rewriting chain of `helpers.clean_phone_number`
(lines 158–169 of `utils/helpers.py`): `08…` ↦ `+62 8…`, `62…` ↦ `+62…`,
`8…` (≥ 9 chars) ↦ `+628…`, and as a last resort any string of ≥ 10
chars without a leading `+` gets `+62` prepended.  First matching rule
wins. -/
def phoneRules (l : List Char) : List Char :=
  if startsWithList l ['0', '8'] then
    ['+', '6', '2'] ++ l.drop 1
  else if startsWithList l ['6', '2'] && !(startsWithList l ['+', '6', '2']) then
    '+' :: l
  else if startsWithList l ['8'] && decide (9 ≤ l.length) then
    ['+', '6', '2'] ++ l
  else if !(startsWithList l ['+']) && decide (10 ≤ l.length) then
    ['+', '6', '2'] ++ l
  else l

/-- The final check of `helpers.clean_phone_number` (lines 171–175):
the candidate is returned only if it starts with `+62` and its total
length lies in `[12, 15]`. -/
def validateCleaned (l : List Char) : Option (List Char) :=
  if startsWithList l ['+', '6', '2'] && decide (12 ≤ l.length) && decide (l.length ≤ 15) then
    some l
  else
    none

/-- `helpers.clean_phone_number` (`utils/helpers.py` lines 148–179).
`if not phone: return None`, then strip to digits/`+`, apply the rule
chain, and validate. -/
def clean_phone_number (phone : String) : Option String :=
  if phone = "" then none
  else (validateCleaned (phoneRules (keepDigitsPlus phone.data))).map List.asString

example : clean_phone_number "081234567890" = some "+6281234567890" := by decide
example : clean_phone_number "+6281234567890" = some "+6281234567890" := by decide
example : clean_phone_number "6281234567890" = some "+6281234567890" := by decide
example : clean_phone_number "12345" = none := by decide
example : clean_phone_number "" = none := by decide
example : clean_phone_number "+62 812-3456-7890" = some "+6281234567890" := by decide
example : clean_phone_number "0812345678+9" = some "+62812345678+9" := by decide

/-- The prefix-rewriting chain of
`ContactFinderAgent._clean_phone_number` (`contact_finder_agent.py`
lines 374–380).  Identical to `phoneRules` except that the agent version
has no fourth "assume Indonesian if ≥ 10 digits" rule. -/
def agentPhoneRules (l : List Char) : List Char :=
  if startsWithList l ['0', '8'] then
    ['+', '6', '2'] ++ l.drop 1
  else if startsWithList l ['6', '2'] && !(startsWithList l ['+', '6', '2']) then
    '+' :: l
  else if startsWithList l ['8'] && decide (9 ≤ l.length) then
    ['+', '6', '2'] ++ l
  else l

/-- `ContactFinderAgent._clean_phone_number` (`contact_finder_agent.py`
lines 368–398).  `phoneLib` is the external `phonenumbers` library call
(`parse` with region `ID`, `is_valid_number`, `format_number E164`):
`some e` means the library accepted the candidate and produced E.164
string `e`; `none` covers both a `NumberParseException` and an invalid
number, after which the code falls through to the same basic `+62` /
length check as `helpers.clean_phone_number`. -/
def agent_clean_phone_number (phoneLib : String → Option String) (phone : String) :
    Option String :=
  let cleaned := agentPhoneRules (keepDigitsPlus phone.data)
  match phoneLib cleaned.asString with
  | some e => some e
  | none => (validateCleaned cleaned).map List.asString

example : agent_clean_phone_number (fun _ => none) "081234567890" =
    some "+6281234567890" := by decide
example : agent_clean_phone_number (fun _ => none) "wa.me/6281234567890" =
    some "+6281234567890" := by decide

/-- `helpers.validate_phone_number` (`utils/helpers.py` lines 118–146).
`phoneLib` is the `phonenumbers.parse`/`is_valid_number` call: `some b`
means parsing succeeded and validity is `b`, `none` means
`NumberParseException` was raised, after which the code falls back to a
digit-count check (`re.sub(r'[^\d]', '', cleaned)` kept between 11 and
15 digits) on `+62`-prefixed values. -/
def validate_phone_number (phoneLib : String → Option Bool) (phone : String) : Bool :=
  if phone = "" then false
  else
    match clean_phone_number phone with
    | none => false
    | some cleaned =>
      match phoneLib cleaned with
      | some b => b
      | none =>
        if startsWithList cleaned.data ['+', '6', '2'] then
          let digitsOnly := cleaned.data.filter Char.isDigit
          decide (11 ≤ digitsOnly.length) && decide (digitsOnly.length ≤ 15)
        else false

/-- `[a-zA-Z0-9._%+-]`, the local-part character class of the e-mail
regular expression in `helpers.validate_email_address` (line 188). -/
def isEmailLocalChar (c : Char) : Bool :=
  c.isAlpha || c.isDigit || c == '.' || c == '_' || c == '%' || c == '+' || c == '-'

/-- `[a-zA-Z0-9.-]`, the domain character class of the same pattern. -/
def isEmailDomainChar (c : Char) : Bool :=
  c.isAlpha || c.isDigit || c == '.' || c == '-'

/-- Decision procedure for membership in the language of
`^[a-zA-Z0-9._%+-]+@[a-zA-Z0-9.-]+\.[a-zA-Z]{2,}$`.  Since `@` is not a
local-part character, a match must split the string at the maximal
leading run of local-part characters followed by `@`; since the
top-level segment `[a-zA-Z]{2,}` admits no dot, the final `\.` of a
match must be the last dot of the domain, i.e. the maximal alphabetic
suffix must be preceded by a dot, with a nonempty run of domain
characters before it. -/
def emailMatchCore (l : List Char) : Bool :=
  let localPart := l.takeWhile isEmailLocalChar
  match l.dropWhile isEmailLocalChar with
  | '@' :: domain =>
    !localPart.isEmpty &&
      (let r := domain.reverse
       let tld := r.takeWhile Char.isAlpha
       match r.dropWhile Char.isAlpha with
       | '.' :: rest => decide (2 ≤ tld.length) && !rest.isEmpty && rest.all isEmailDomainChar
       | _ => false)
  | _ => false

/-- `re.match(pattern, email)` for the anchored e-mail pattern of
`helpers.validate_email_address` (lines 188–189).  Python's `$` also
matches just before a single trailing newline, hence the second
disjunct. -/
def emailRegexMatch (email : String) : Bool :=
  emailMatchCore email.data ||
    (match email.data.getLast? with
     | some c => c == '\n' && emailMatchCore email.data.dropLast
     | none => false)

example : emailRegexMatch "test@example.com" = true := by decide
example : emailRegexMatch "user@domain.co.id" = true := by decide
example : emailRegexMatch "invalid.email" = false := by decide
example : emailRegexMatch "not-an-email" = false := by decide
example : emailRegexMatch "a@b.c" = false := by decide
example : emailRegexMatch "a@b-.com" = true := by decide

/-- `helpers.validate_email_address` (`utils/helpers.py` lines 181–201).
`emailLib` is the external `email_validator.validate_email` call,
collapsed to the boolean the function returns (`false` for
`EmailNotValidError`); it is only consulted after the regex check
passes. -/
def validate_email_address (emailLib : String → Bool) (email : String) : Bool :=
  if email = "" then false
  else if emailRegexMatch email then emailLib email
  else false

/-- `sub in s` for character lists: `sub` occurs as a contiguous
substring of `s`. -/
def hasSubstring (l sub : List Char) : Bool :=
  startsWithList l sub ||
    (match l with
     | [] => false
     | _ :: cs => hasSubstring cs sub)

example : hasSubstring "https://wa.me/123".data "wa.".data = true := by decide
example : hasSubstring "a@acme.id".data "wa.".data = false := by decide

/-- `DatabaseManager._determine_contact_type` (`utils/database.py`
lines 177–190): `whatsapp` if the lower-cased string contains
`"whatsapp"` or `"wa."`, else `email` if it contains `@`, else `phone`
if it contains any digit, else `social` if it mentions one of the four
platforms, else `other`. -/
def determine_contact_type (contact : String) : String :=
  let contactLower := contact.data.map Char.toLower
  if hasSubstring contactLower "whatsapp".data || hasSubstring contactLower "wa.".data then
    "whatsapp"
  else if contact.data.contains '@' then
    "email"
  else if contact.data.any Char.isDigit then
    "phone"
  else if ["instagram", "facebook", "tiktok", "youtube"].any
      (fun p => hasSubstring contactLower p.data) then
    "social"
  else
    "other"

example : determine_contact_type "instagram.com/user123" = "phone" := by decide
example : determine_contact_type "instagram.com/user" = "social" := by decide
example : determine_contact_type "a@acme.id" = "email" := by decide
example : determine_contact_type "+6281111111111" = "phone" := by decide

/-- Python's `str.strip()` (ASCII whitespace). -/
def stripList (l : List Char) : List Char :=
  ((l.dropWhile Char.isWhitespace).reverse.dropWhile Char.isWhitespace).reverse

/-- `DatabaseManager._extract_contact_value` (`utils/database.py`
lines 192–199): drop a recognised lower-case label such as `"phone:"`
from the front (first matching label wins), then strip whitespace. -/
def extract_contact_value (contact : String) : String :=
  let contactLower := contact.data.map Char.toLower
  let labels := ["phone:", "email:", "whatsapp:", "wa:", "social:"]
  match labels.find? (fun p => startsWithList contactLower p.data) with
  | some p => (stripList (contact.data.drop p.length)).asString
  | none => (stripList contact.data).asString

example : extract_contact_value "Phone: +6281234567890" = "+6281234567890" := by decide
example : extract_contact_value "a@acme.id" = "a@acme.id" := by decide
example : extract_contact_value "wa: 0812" = "0812" := by decide

/-- A row of the `brands` table, restricted to the columns `save_brand`
reads or writes (`social_media`, `notes`, the timestamps and the
`is_active` flag never influence the claims under study). -/
structure Brand where
  id : Nat
  name : String
  website : String
  category : String
  location : String
  business_type : String
  contactsJson : List String
  description : String
  deriving Repr, DecidableEq

/-- A row of the `contacts` table (the `is_primary` / `is_verified`
flags keep their defaults and are omitted). -/
structure ContactRow where
  brand_id : Nat
  contact_type : String
  contact_value : String
  deriving Repr, DecidableEq

/-- The SQLite state touched by `save_brand`: the `brands` rows in rowid
order, the `contacts` rows, and the next `AUTOINCREMENT` id of `brands`
(SQLite assigns ids from 1). -/
structure DB where
  brands : List Brand
  contacts : List ContactRow
  nextId : Nat
  deriving Repr, DecidableEq

def DB.empty : DB := { brands := [], contacts := [], nextId := 1 }

/-- The `brand_data` dictionary passed to `save_brand`: `none` models an
absent key (Python `dict.get` with its default). -/
structure BrandData where
  name : Option String := none
  website : Option String := none
  category : Option String := none
  location : Option String := none
  business_type : Option String := none
  description : Option String := none
  contacts : List String := []

/-- The `WHERE name = ? OR website = ?` row filter of the lookup in
`save_brand` (lines 107–110), with the parameters
`brand_data.get('name', '')` and `brand_data.get('website', '')`. -/
def matchesBrand (bd : BrandData) (b : Brand) : Bool :=
  b.name == bd.name.getD "" || b.website == bd.website.getD ""

/-- The storage-fault modes of one `save_brand` call.  `ok`: no
exception.  `entity`: an exception in the brand lookup / `UPDATE` /
`INSERT` or at commit, which reaches `save_brand`'s own `except`
handler (the `sqlite3.connect` context manager rolls the transaction
back).  `contacts k`: an exception inside `_save_contacts`'s insert
loop, after its `DELETE` and `k` completed loop iterations — this one
is swallowed by `_save_contacts`'s internal `except`
(`utils/database.py` lines 174–175) and never reaches `save_brand`'s
handler, so `save_brand` commits normally. -/
inductive SaveFault where
  | ok
  | entity
  | contacts (k : Nat)
  deriving Repr, DecidableEq

/-- The fault position seen by `_save_contacts`, if any. -/
def SaveFault.contactFault : SaveFault → Option Nat
  | .contacts k => some k
  | _ => none

/-- One iteration body of the `for contact in contacts` loop of
`_save_contacts`: the row inserted for `contact`, or `none` when the
extracted value is empty (`if contact_value:` fails). -/
def insRow (brand_id : Nat) (contact : String) : Option ContactRow :=
  let contact_value := extract_contact_value contact
  if contact_value = "" then none
  else some { brand_id := brand_id,
              contact_type := determine_contact_type contact,
              contact_value := contact_value }

/-- `DatabaseManager._save_contacts` (`utils/database.py` lines
158–175): delete every `contacts` row of the brand, then insert one row
per incoming contact string whose extracted value is nonempty, typed by
`_determine_contact_type`.  The whole body sits in a `try` whose
`except` only logs: `fault = some k` models a storage exception raised
in the insert loop after `k` completed iterations — the `DELETE` and
the first `k` inserts stay in the transaction, the remaining contacts
are never processed, and no exception escapes. -/
def save_contacts (fault : Option Nat) (rows : List ContactRow) (brand_id : Nat)
    (contacts : List String) : List ContactRow :=
  let cleared := rows.filter (fun r => r.brand_id ≠ brand_id)
  match fault with
  | none => cleared ++ contacts.filterMap (insRow brand_id)
  | some k => cleared ++ (contacts.take k).filterMap (insRow brand_id)

/-- `DatabaseManager.save_brand` (`utils/database.py` lines 100–156).
On `SaveFault.entity` the storage exception reaches `save_brand`'s
`except` branch: the `with sqlite3.connect` context manager rolls the
transaction back and `0` is returned.  Otherwise: look the brand up by
exact `name` OR `website` equality (`fetchone`, i.e. first row in rowid
order); if found, `UPDATE` every scalar column and the contacts JSON of
that row (the `name` column is not in the `UPDATE` list); if not found,
`INSERT` a new row (name defaulting to `"Unknown"`).  Then
`_save_contacts` rewrites the brand's `contacts` rows — swallowing a
`SaveFault.contacts k` fault internally, so the commit still happens —
and the brand id is returned. -/
def save_brand (fault : SaveFault) (db : DB) (bd : BrandData) : DB × Nat :=
  match fault with
  | .entity => (db, 0)
  | f =>
    match db.brands.find? (matchesBrand bd) with
    | some existing =>
      let brand_id := existing.id
      let brands := db.brands.map (fun b =>
        if b.id = brand_id then
          { b with website := bd.website.getD ""
                   category := bd.category.getD ""
                   location := bd.location.getD ""
                   business_type := bd.business_type.getD ""
                   contactsJson := bd.contacts
                   description := bd.description.getD "" }
        else b)
      ({ brands := brands,
         contacts := save_contacts f.contactFault db.contacts brand_id bd.contacts,
         nextId := db.nextId }, brand_id)
    | none =>
      let brand_id := db.nextId
      let newBrand : Brand :=
        { id := brand_id
          name := bd.name.getD "Unknown"
          website := bd.website.getD ""
          category := bd.category.getD ""
          location := bd.location.getD ""
          business_type := bd.business_type.getD ""
          contactsJson := bd.contacts
          description := bd.description.getD "" }
      ({ brands := db.brands ++ [newBrand],
         contacts := save_contacts f.contactFault db.contacts brand_id bd.contacts,
         nextId := db.nextId + 1 }, brand_id)

/-- One element of the list produced by
`ContactFinderAgent._extract_all_contacts`: a typed contact candidate
(`type` is `"phone"`, `"email"`, `"whatsapp"` or `"social_<platform>"`;
the `source`/`raw` fields play no role in the grouping). -/
structure CFContact where
  type : String
  value : String
  deriving Repr, DecidableEq

/-- The four output buckets of
`ContactFinderAgent._parse_contact_results`. -/
structure GroupedContacts where
  whatsapp : List String := []
  phone : List String := []
  email : List String := []
  social : List String := []
  deriving Repr, DecidableEq

/-- Python's `str.replace(pat, rep)`: left-to-right, non-overlapping.
The sources only call it with the nonempty pattern `"social_"`; for an
empty pattern this model returns the string unchanged (Python would
instead interleave `rep` everywhere, a case unreachable here). -/
def replaceAllList (pat rep : List Char) : List Char → List Char
  | [] => []
  | c :: cs =>
    if h : pat ≠ [] ∧ startsWithList (c :: cs) pat then
      rep ++ replaceAllList pat rep ((c :: cs).drop pat.length)
    else
      c :: replaceAllList pat rep cs
termination_by l => l.length
decreasing_by
  · simp only [List.length_drop, List.length_cons]
    have hp : 1 ≤ pat.length := by
      cases hpat : pat with
      | nil => exact absurd hpat h.1
      | cons x xs => simp
    omega
  · simp

example : (replaceAllList "social_".data "".data "social_instagram".data).asString =
    "instagram" := by
  simp [replaceAllList, startsWithList, List.asString]

/-- One iteration of the `for contact in all_contacts` loop of
`ContactFinderAgent._parse_contact_results` (lines 442–456), acting on
the buckets accumulated so far and the `seen_values` set: an unseen
value is recorded as seen and routed to exactly one bucket — `whatsapp`
for type `"whatsapp"` or for type `"phone"` with a `+62`-prefixed value,
else `phone`, `email`, or (for `social_<platform>` types) `social` with
the `"<platform>: <value>"` display string. -/
def groupStep : GroupedContacts × List String → CFContact → GroupedContacts × List String
  | (g, seen), c =>
    if seen.contains c.value then (g, seen)
    else
      let seen' := c.value :: seen
      if c.type == "whatsapp" || (c.type == "phone" && startsWithList c.value.data "+62".data) then
        ({ g with whatsapp := g.whatsapp ++ [c.value] }, seen')
      else if c.type == "phone" then
        ({ g with phone := g.phone ++ [c.value] }, seen')
      else if c.type == "email" then
        ({ g with email := g.email ++ [c.value] }, seen')
      else if startsWithList c.type.data "social_".data then
        ({ g with social := g.social ++
            [(replaceAllList "social_".data [] c.type.data).asString ++ ": " ++ c.value] }, seen')
      else (g, seen')

/-- The grouping-and-deduplication phase of
`ContactFinderAgent._parse_contact_results` (`contact_finder_agent.py`
lines 432–456), folded over the extracted contact list. -/
def groupContacts (l : List CFContact) : GroupedContacts :=
  (l.foldl groupStep ({}, [])).1

example : groupContacts [⟨"phone", "+6281234567890"⟩] =
    { whatsapp := ["+6281234567890"] } := by decide
example : groupContacts [⟨"whatsapp", "+6281234567890"⟩, ⟨"phone", "+6281234567890"⟩] =
    { whatsapp := ["+6281234567890"] } := by decide
example : groupContacts [⟨"phone", "0274565656"⟩] =
    { phone := ["0274565656"] } := by decide

/-! ## Helper lemmas -/

theorem startsWithList_iff : ∀ (l p : List Char), startsWithList l p = true ↔ ∃ t, l = p ++ t := by
  intro l p
  induction p generalizing l with
  | nil => cases l <;> simp [startsWithList]
  | cons x xs ih =>
    cases l with
    | nil => simp [startsWithList]
    | cons c cs =>
      simp only [startsWithList, Bool.and_eq_true, beq_iff_eq, ih, List.cons_append]
      constructor
      · rintro ⟨rfl, t, rfl⟩; exact ⟨t, rfl⟩
      · rintro ⟨t, h⟩
        injection h with h1 h2
        exact ⟨h1, t, h2⟩

theorem phoneRules_plus62 (t : List Char) :
    phoneRules ('+' :: '6' :: '2' :: t) = '+' :: '6' :: '2' :: t := by
  simp [phoneRules, startsWithList]

theorem phoneRules_all {P : Char → Bool} (h6 : P '6') (h2 : P '2') (hp : P '+')
    (l : List Char) (hl : ∀ c ∈ l, P c) : ∀ c ∈ phoneRules l, P c := by
  intro c hc
  unfold phoneRules at hc
  split at hc
  · simp only [List.cons_append, List.nil_append, List.mem_cons] at hc
    rcases hc with rfl | rfl | rfl | h
    · exact hp
    · exact h6
    · exact h2
    · exact hl c (List.mem_of_mem_drop h)
  · split at hc
    · rcases List.mem_cons.mp hc with rfl | h
      · exact hp
      · exact hl c h
    · split at hc
      · simp only [List.cons_append, List.nil_append, List.mem_cons] at hc
        rcases hc with rfl | rfl | rfl | h
        · exact hp
        · exact h6
        · exact h2
        · exact hl c h
      · split at hc
        · simp only [List.cons_append, List.nil_append, List.mem_cons] at hc
          rcases hc with rfl | rfl | rfl | h
          · exact hp
          · exact h6
          · exact h2
          · exact hl c h
        · exact hl c hc

theorem keepDigitsPlus_all (l : List Char) :
    ∀ c ∈ keepDigitsPlus l, (c.isDigit || c == '+') = true := by
  intro c hc
  unfold keepDigitsPlus at hc
  exact (List.mem_filter.mp hc).2

theorem keepDigitsPlus_fixed {l : List Char} (h : ∀ c ∈ l, (c.isDigit || c == '+') = true) :
    keepDigitsPlus l = l :=
  List.filter_eq_self.mpr h

theorem asString_ne_empty (a : Char) (t : List Char) : (a :: t).asString ≠ "" := by
  intro h
  have h2 : (a :: t) = ([] : List Char) := congrArg String.data h
  cases h2

theorem validateCleaned_eq_some {l m : List Char} (h : validateCleaned l = some m) :
    m = l ∧ startsWithList l ['+', '6', '2'] = true ∧ 12 ≤ l.length ∧ l.length ≤ 15 := by
  unfold validateCleaned at h
  split at h
  · rename_i hcond
    simp only [Bool.and_eq_true, decide_eq_true_eq] at hcond
    cases h
    exact ⟨rfl, hcond.1.1, hcond.1.2, hcond.2⟩
  · cases h

theorem clean_eq_some {x : String} {c : String} (h : clean_phone_number x = some c) :
    ∃ l, c = l.asString ∧ validateCleaned (phoneRules (keepDigitsPlus x.data)) = some l := by
  unfold clean_phone_number at h
  split at h
  · cases h
  · rcases Option.map_eq_some'.mp h with ⟨l, hl, rfl⟩
    exact ⟨l, rfl, hl⟩

theorem clean_roundtrip (t : List Char)
    (h12 : 12 ≤ ('+' :: '6' :: '2' :: t).length) (h15 : ('+' :: '6' :: '2' :: t).length ≤ 15)
    (hall : ∀ ch ∈ ('+' :: '6' :: '2' :: t), (ch.isDigit || ch == '+') = true) :
    clean_phone_number ('+' :: '6' :: '2' :: t).asString =
      some ('+' :: '6' :: '2' :: t).asString := by
  unfold clean_phone_number
  rw [if_neg (asString_ne_empty _ _)]
  have hdata : (('+' :: '6' :: '2' :: t).asString).data = '+' :: '6' :: '2' :: t := rfl
  rw [hdata, keepDigitsPlus_fixed hall, phoneRules_plus62]
  unfold validateCleaned
  rw [if_pos]
  · rfl
  · simp only [List.length_cons] at h12 h15
    simp only [startsWithList, Bool.and_eq_true, decide_eq_true_eq, List.length_cons]
    refine ⟨⟨?_, by omega⟩, by omega⟩
    simp

/-! ## Claim theorems: the phone normalizer -/

/-- C4.  Phone normalization is idempotent: whenever
`clean_phone_number` returns a canonical value `c`, feeding `c` back in
returns `c` unchanged. -/
theorem clean_phone_number_idem (x c : String) (h : clean_phone_number x = some c) :
    clean_phone_number c = some c := by
  obtain ⟨l, rfl, hv⟩ := clean_eq_some h
  obtain ⟨heq, hsw, h12, h15⟩ := validateCleaned_eq_some hv
  obtain ⟨t, hshape⟩ := (startsWithList_iff _ _).mp hsw
  subst heq
  rw [hshape] at h12 h15 ⊢
  simp only [List.cons_append, List.nil_append] at h12 h15 ⊢
  have hall : ∀ ch ∈ phoneRules (keepDigitsPlus x.data), (ch.isDigit || ch == '+') = true :=
    phoneRules_all (by decide) (by decide) (by decide) _ (keepDigitsPlus_all _)
  apply clean_roundtrip t h12 h15
  intro ch hch
  apply hall
  rw [hshape]
  simpa using hch

/-- C4 witness: `"081234567890"` normalizes to `"+6281234567890"`, and
re-normalizing that canonical value returns it unchanged. -/
theorem clean_phone_number_idem_witness :
    clean_phone_number "+6281234567890" = some "+6281234567890" :=
  clean_phone_number_idem "081234567890" "+6281234567890" (by decide)

/-- C5 (amended).  Every value returned by `clean_phone_number` starts
with `+62`, has total length 12–15, and consists exclusively of digits
and `+` characters (hence contains no space, hyphen or parenthesis);
the original claim's stronger "digits only after position 0" is refuted
by `clean_phone_number_second_plus`. -/
theorem clean_phone_number_canonical (x c : String) (h : clean_phone_number x = some c) :
    startsWithList c.data ['+', '6', '2'] = true ∧
    12 ≤ c.length ∧ c.length ≤ 15 ∧
    (∀ ch ∈ c.data, (ch.isDigit || ch == '+') = true) ∧
    (∀ ch ∈ c.data, ch ≠ ' ' ∧ ch ≠ '-' ∧ ch ≠ '(' ∧ ch ≠ ')') := by
  obtain ⟨l, rfl, hv⟩ := clean_eq_some h
  obtain ⟨heq, hsw, h12, h15⟩ := validateCleaned_eq_some hv
  subst heq
  have hdata : ((phoneRules (keepDigitsPlus x.data)).asString).data =
      phoneRules (keepDigitsPlus x.data) := rfl
  have hall : ∀ ch ∈ phoneRules (keepDigitsPlus x.data), (ch.isDigit || ch == '+') = true :=
    phoneRules_all (by decide) (by decide) (by decide) _ (keepDigitsPlus_all _)
  refine ⟨by rw [hdata]; exact hsw, h12, h15, by rw [hdata]; exact hall, ?_⟩
  rw [hdata]
  intro ch hch
  have hP := hall ch hch
  refine ⟨?_, ?_, ?_, ?_⟩ <;> rintro rfl <;> exact absurd hP (by decide)

/-- C5 witness: the canonical-form properties hold of the output for
input `"081234567890"`. -/
theorem clean_phone_number_canonical_witness :
    startsWithList "+6281234567890".data ['+', '6', '2'] = true ∧
    12 ≤ "+6281234567890".length ∧ "+6281234567890".length ≤ 15 ∧
    (∀ ch ∈ "+6281234567890".data, (ch.isDigit || ch == '+') = true) ∧
    (∀ ch ∈ "+6281234567890".data, ch ≠ ' ' ∧ ch ≠ '-' ∧ ch ≠ '(' ∧ ch ≠ ')') :=
  clean_phone_number_canonical "081234567890" "+6281234567890" (by decide)

/-- C5 counterexample: a `+` from the input's interior survives past
position 0 (`re.sub(r'[^\d+]', '', …)` keeps every `+`, not only a
leading one), so the output is not always digits-only after the leading
`+`. -/
theorem clean_phone_number_second_plus :
    clean_phone_number "0812345678+9" = some "+62812345678+9" ∧
    ("+62812345678+9".data.drop 1).contains '+' = true := by decide

/-- C6.  The three spellings of the same Indonesian number all normalize
to the canonical `"+6281234567890"`. -/
theorem clean_phone_number_format_equiv :
    clean_phone_number "081234567890" = some "+6281234567890" ∧
    clean_phone_number "+6281234567890" = some "+6281234567890" ∧
    clean_phone_number "6281234567890" = some "+6281234567890" := by decide

/-! ## Claim theorems: totality of the validators -/

theorem clean_none_of_no_digit (s : String) (h : ∀ ch ∈ s.data, ¬ ch.isDigit = true) :
    clean_phone_number s = none := by
  unfold clean_phone_number
  split
  · rfl
  · have hplus : ∀ c ∈ keepDigitsPlus s.data, c = '+' := by
      intro c hc
      unfold keepDigitsPlus at hc
      have hmem := List.mem_filter.mp hc
      rcases Bool.or_eq_true_iff.mp hmem.2 with hd | hp
      · exact absurd hd (h c hmem.1)
      · exact eq_of_beq hp
    have hfix : phoneRules (keepDigitsPlus s.data) = keepDigitsPlus s.data := by
      unfold phoneRules
      cases hk : keepDigitsPlus s.data with
      | nil => simp [startsWithList]
      | cons c cs =>
        have hc : c = '+' := hplus c (by rw [hk]; exact List.mem_cons_self c cs)
        subst hc
        simp [startsWithList]
    rw [hfix]
    have hsw : startsWithList (keepDigitsPlus s.data) ['+', '6', '2'] = false := by
      cases hb : startsWithList (keepDigitsPlus s.data) ['+', '6', '2'] with
      | false => rfl
      | true =>
        obtain ⟨t, ht⟩ := (startsWithList_iff _ _).mp hb
        have h6 : ('6' : Char) ∈ keepDigitsPlus s.data := by rw [ht]; simp
        exact absurd (hplus _ h6) (by decide)
    simp [validateCleaned, hsw]

theorem emailMatchCore_has_at {l : List Char} (h : emailMatchCore l = true) : '@' ∈ l := by
  unfold emailMatchCore at h
  split at h
  · rename_i domain heq
    exact (List.dropWhile_sublist _).subset (by rw [heq]; exact List.mem_cons_self _ _)
  · cases h

theorem emailRegexMatch_has_at {s : String} (h : emailRegexMatch s = true) : '@' ∈ s.data := by
  unfold emailRegexMatch at h
  rcases Bool.or_eq_true_iff.mp h with h1 | h2
  · exact emailMatchCore_has_at h1
  · split at h2
    · have := Bool.and_eq_true_iff.mp h2
      exact (List.dropLast_sublist _).subset (emailMatchCore_has_at this.2)
    · cases h2

/-- C10.  Totality and rejection behavior of the validators.  In this
embedding the three functions are total by construction (every Python
code path, including both `except` arms, is a value); this theorem
proves the rejection contract for all behaviors of the external
library oracles: any input without a digit cannot be normalized
(`clean_phone_number` returns `none` and `validate_phone_number`
returns `false`, the empty string included), and any input without an
`@` fails `validate_email_address`. -/
theorem validators_total (phoneLib : String → Option Bool) (emailLib : String → Bool)
    (s : String) :
    ((∀ ch ∈ s.data, ¬ ch.isDigit = true) →
      clean_phone_number s = none ∧ validate_phone_number phoneLib s = false) ∧
    ('@' ∉ s.data → validate_email_address emailLib s = false) := by
  constructor
  · intro h
    have hclean := clean_none_of_no_digit s h
    refine ⟨hclean, ?_⟩
    unfold validate_phone_number
    split
    · rfl
    · rw [hclean]
  · intro h
    unfold validate_email_address
    split
    · rfl
    · split
      · rename_i hm
        exact absurd (emailRegexMatch_has_at hm) h
      · rfl

/-- C10 witness: the digit-free, `@`-free input `"not-an-email"` is
rejected by all three validators, whatever the library oracles do. -/
theorem validators_total_witness :
    (clean_phone_number "not-an-email" = none ∧
      validate_phone_number (fun _ => none) "not-an-email" = false) ∧
    validate_email_address (fun _ => true) "not-an-email" = false :=
  ⟨(validators_total (fun _ => none) (fun _ => true) "not-an-email").1 (by decide),
   (validators_total (fun _ => none) (fun _ => true) "not-an-email").2 (by decide)⟩

/-! ## Claim theorems: contact-type classification -/

/-- C9.  `_determine_contact_type` checks WhatsApp markers, then `@`,
then digits, then platform names, in that order: a string with a digit
but no `@` and no WhatsApp marker is classified `"phone"` (even a
social-media URL whose handle contains a digit), and `"social"` is
possible only for digit-free, `@`-free, marker-free strings. -/
theorem determine_contact_type_priority (contact : String) :
    (hasSubstring (contact.data.map Char.toLower) "whatsapp".data = false →
     hasSubstring (contact.data.map Char.toLower) "wa.".data = false →
     contact.data.contains '@' = false →
     contact.data.any Char.isDigit = true →
     determine_contact_type contact = "phone") ∧
    (determine_contact_type contact = "social" →
     contact.data.any Char.isDigit = false ∧
     contact.data.contains '@' = false ∧
     hasSubstring (contact.data.map Char.toLower) "whatsapp".data = false ∧
     hasSubstring (contact.data.map Char.toLower) "wa.".data = false) := by
  constructor
  · intro h1 h2 h3 h4
    have h3' : ¬ '@' ∈ contact.data := by simpa using h3
    simp [determine_contact_type, h1, h2, h3, h3', h4]
  · intro h
    simp only [determine_contact_type] at h
    by_cases hA : (hasSubstring (contact.data.map Char.toLower) "whatsapp".data ||
        hasSubstring (contact.data.map Char.toLower) "wa.".data) = true
    · rw [if_pos hA] at h
      exact absurd h (by decide)
    · rw [if_neg hA] at h
      by_cases hB : contact.data.contains '@' = true
      · rw [if_pos hB] at h
        exact absurd h (by decide)
      · rw [if_neg hB] at h
        by_cases hC : contact.data.any Char.isDigit = true
        · rw [if_pos hC] at h
          exact absurd h (by decide)
        · simp only [Bool.or_eq_true, not_or, Bool.not_eq_true] at hA
          simp only [Bool.not_eq_true] at hB hC
          exact ⟨hC, hB, hA.1, hA.2⟩

/-- C9 witness: a social-media URL whose handle contains a digit is
classified `"phone"` because the digit check precedes the platform
check. -/
theorem determine_contact_type_priority_witness :
    determine_contact_type "instagram.com/user123" = "phone" :=
  (determine_contact_type_priority "instagram.com/user123").1
    (by decide) (by decide) (by decide) (by decide)

/-! ## Claim theorems: the brand store -/

/-- The database state after upserting Acme a first time, with one
e-mail contact. -/
def acmeSave1 : DB :=
  (save_brand .ok DB.empty
    { name := some "Acme", website := some "acme.id", contacts := ["a@acme.id"] }).1

/-- The database state after the second Acme upsert, which adds a
category and brings one phone contact. -/
def acmeSave2 : DB :=
  (save_brand .ok acmeSave1
    { name := some "Acme", website := some "acme.id", category := some "Skincare",
      contacts := ["+6281111111111"] }).1

/-- C1 counterexample: after the two Acme upserts the first call's
contact `"a@acme.id"` is gone — `_save_contacts` deletes the brand's
rows before re-inserting only the new batch, and the `contacts` JSON
column is overwritten — so the final contact set does not contain both
contacts as the claim requires. -/
theorem save_brand_upsert_no_merge :
    acmeSave1.contacts =
      [{ brand_id := 1, contact_type := "email", contact_value := "a@acme.id" }] ∧
    acmeSave2.brands.length = 1 ∧
    (∀ r ∈ acmeSave2.contacts, r.contact_value ≠ "a@acme.id") ∧
    (∀ b ∈ acmeSave2.brands, "a@acme.id" ∉ b.contactsJson) := by decide

/-- C1 (amended).  The two Acme upserts yield exactly one stored entity
whose category is `"Skincare"`, but whose contact set is exactly the
second batch `{"+6281111111111"}`: on update the contacts are replaced,
not merged as a union. -/
theorem save_brand_upsert_replaces :
    acmeSave2.brands = [{ id := 1,
                          name := "Acme",
                          website := "acme.id",
                          category := "Skincare",
                          location := "",
                          business_type := "",
                          contactsJson := ["+6281111111111"],
                          description := "" }] ∧
    acmeSave2.contacts =
      [{ brand_id := 1, contact_type := "phone", contact_value := "+6281111111111" }] := by
  decide

/-- The database state after storing Acme with category `"Skincare"`
(and no other attributes). -/
def dbSkincare : DB :=
  (save_brand .ok DB.empty { name := some "Acme", category := some "Skincare" }).1

/-- The Acme row as stored by the first save in `dbSkincare`. -/
def brandSkincare : Brand :=
  { id := 1, name := "Acme", website := "", category := "Skincare", location := "",
    business_type := "", contactsJson := [], description := "" }

/-- The Acme row after a second save without a category. -/
def brandErased : Brand :=
  { id := 1, name := "Acme", website := "", category := "", location := "",
    business_type := "", contactsJson := [], description := "" }

/-- C2 counterexample: upserting Acme again with the category absent
erases the stored `"Skincare"` — the `UPDATE` statement writes
`brand_data.get('category', '')` unconditionally, so empty input
attributes do overwrite existing non-empty values. -/
theorem save_brand_empty_category_erases :
    dbSkincare.brands = [brandSkincare] ∧
    (save_brand .ok dbSkincare { name := some "Acme" }).1.brands = [brandErased] ∧
    (∀ b ∈ (save_brand .ok dbSkincare { name := some "Acme" }).1.brands,
      b.category ≠ "Skincare") := by decide

/-- C2 (amended).  `save_brand`'s update path is destructive, not a
partial update: every scalar column except `name` is overwritten with
the incoming value (`dict.get` default `""` for absent keys), and the
contacts JSON is overwritten with the incoming list; in particular an
empty or absent category replaces a stored non-empty one. -/
theorem save_brand_update_overwrites (db : DB) (bd : BrandData) (b : Brand)
    (hfind : db.brands.find? (matchesBrand bd) = some b) :
    ∀ x ∈ (save_brand .ok db bd).1.brands, x.id = b.id →
      x.website = bd.website.getD "" ∧ x.category = bd.category.getD "" ∧
      x.location = bd.location.getD "" ∧ x.business_type = bd.business_type.getD "" ∧
      x.description = bd.description.getD "" ∧ x.contactsJson = bd.contacts := by
  intro x hx hid
  simp only [save_brand, Bool.false_eq_true, if_false, hfind] at hx
  rcases List.mem_map.mp hx with ⟨y, hy, rfl⟩
  by_cases hyid : y.id = b.id
  · simp [hyid]
  · simp only [if_neg hyid] at hid ⊢
    exact absurd hid hyid

/-- C2 witness: in the concrete two-save scenario the updated Acme row
carries the overwritten (empty) attributes. -/
theorem save_brand_update_overwrites_witness :
    brandErased.website = "" ∧ brandErased.category = "" ∧ brandErased.location = "" ∧
    brandErased.business_type = "" ∧ brandErased.description = "" ∧
    brandErased.contactsJson = [] :=
  save_brand_update_overwrites dbSkincare { name := some "Acme" } brandSkincare
    (by decide) brandErased (by decide) (by decide)

/-- The database state after saving `BrandA` and then `BrandB`, both
without a website. -/
def twoEmptyWebsites : DB :=
  (save_brand .ok (save_brand .ok DB.empty { name := some "BrandA" }).1
    { name := some "BrandB" }).1

/-- C3 counterexample: `BrandB`'s save matches the stored `BrandA`
through the two empty `website` values (`WHERE name = ? OR website = ?`
has no non-emptiness guard), so the store ends up with a single entity
still named `BrandA` and the second save returns id 1 instead of
inserting a new entity. -/
theorem save_brand_empty_website_matches :
    (save_brand .ok DB.empty { name := some "BrandA" }).1.brands.length = 1 ∧
    (save_brand .ok (save_brand .ok DB.empty { name := some "BrandA" }).1
      { name := some "BrandB" }).2 = 1 ∧
    twoEmptyWebsites.brands.length = 1 ∧
    (∀ b ∈ twoEmptyWebsites.brands, b.name = "BrandA") := by decide

/-- C3 (amended).  The lookup in `save_brand` matches an existing entity
iff the incoming name equals the stored name or the incoming website
equals the stored website, as plain string equality with `""` defaults
for absent fields — empty values participate in the comparison rather
than never matching; and `save_brand` inserts a new row exactly when the
lookup finds nothing. -/
theorem save_brand_lookup_spec (db : DB) (bd : BrandData) :
    ((db.brands.find? (matchesBrand bd)).isSome ↔
      ∃ b ∈ db.brands, b.name = bd.name.getD "" ∨ b.website = bd.website.getD "") ∧
    (save_brand .ok db bd).1.brands.length =
      (if (db.brands.find? (matchesBrand bd)).isSome then db.brands.length
       else db.brands.length + 1) := by
  constructor
  · simp only [List.find?_isSome, matchesBrand, Bool.or_eq_true, beq_iff_eq]
  · cases hfind : db.brands.find? (matchesBrand bd) with
    | some b => simp [save_brand, hfind]
    | none => simp [save_brand, hfind]

/-- The reachability invariant of the store: row ids are positive and
the `AUTOINCREMENT` counter starts at 1. -/
def DBWF (db : DB) : Prop := 1 ≤ db.nextId ∧ ∀ b ∈ db.brands, 1 ≤ b.id

theorem save_contacts_take_decomp (k : Nat) (rows : List ContactRow) (brand_id : Nat)
    (contacts : List String) :
    ∃ t, save_contacts none rows brand_id contacts =
      save_contacts (some k) rows brand_id contacts ++ t := by
  refine ⟨(contacts.drop k).filterMap (insRow brand_id), ?_⟩
  simp only [save_contacts]
  rw [List.append_assoc, ← List.filterMap_append, List.take_append_drop]

/-- C8 (amended).  Fault contract of `save_brand` on a well-formed
store.  A storage fault in the entity write or at commit is caught by
`save_brand`'s own handler: the transaction is rolled back and the
sentinel `0` is returned, the contact merge never happening.  On
success the returned id is never `0` and the store invariant is
preserved.  But a storage fault inside `_save_contacts` is swallowed by
its internal handler: `save_brand` commits and returns the same nonzero
entity id as a fault-free run, with the same `brands` table, while the
`contacts` table holds only a prefix of the fault-free rows (the
brand's old rows already deleted, only the contacts processed before
the fault inserted) — a partial batch, not a sentinel and not a skipped
merge. -/
theorem save_brand_fault_contract (db : DB) (bd : BrandData) (hwf : DBWF db) :
    save_brand .entity db bd = (db, 0) ∧
    ((save_brand .ok db bd).2 ≠ 0 ∧ DBWF (save_brand .ok db bd).1) ∧
    (∀ k : Nat,
      (save_brand (.contacts k) db bd).2 = (save_brand .ok db bd).2 ∧
      (save_brand (.contacts k) db bd).2 ≠ 0 ∧
      (save_brand (.contacts k) db bd).1.brands = (save_brand .ok db bd).1.brands ∧
      ∃ t, (save_brand .ok db bd).1.contacts =
        (save_brand (.contacts k) db bd).1.contacts ++ t) := by
  refine ⟨rfl, ⟨?_, ?_⟩, ?_⟩
  · cases hfind : db.brands.find? (matchesBrand bd) with
    | some b =>
      simp only [save_brand, hfind]
      have hb := hwf.2 b (List.mem_of_find?_eq_some hfind)
      omega
    | none =>
      simp only [save_brand, hfind]
      have h1 := hwf.1
      omega
  · cases hfind : db.brands.find? (matchesBrand bd) with
    | some b =>
      simp only [save_brand, hfind]
      refine ⟨hwf.1, ?_⟩
      intro x hx
      rcases List.mem_map.mp hx with ⟨y, hy, rfl⟩
      have h1 := hwf.2 y hy
      by_cases hyid : y.id = b.id <;> simp [hyid] <;> omega
    | none =>
      simp only [save_brand, hfind]
      refine ⟨show 1 ≤ db.nextId + 1 by omega, ?_⟩
      intro x hx
      rcases List.mem_append.mp hx with h | h
      · exact hwf.2 x h
      · rcases List.mem_singleton.mp h with rfl
        exact hwf.1
  · intro k
    cases hfind : db.brands.find? (matchesBrand bd) with
    | some b =>
      simp only [save_brand, hfind, SaveFault.contactFault]
      have hb := hwf.2 b (List.mem_of_find?_eq_some hfind)
      exact ⟨by trivial, by omega, by trivial,
        save_contacts_take_decomp k db.contacts b.id bd.contacts⟩
    | none =>
      simp only [save_brand, hfind, SaveFault.contactFault]
      have h1 := hwf.1
      exact ⟨by trivial, by omega, by trivial,
        save_contacts_take_decomp k db.contacts db.nextId bd.contacts⟩

/-- C8 witness: at the empty store an entity fault returns the sentinel
with nothing written, the fault-free save returns a nonzero id, and a
merge-phase fault still returns a nonzero id. -/
theorem save_brand_fault_contract_witness :
    save_brand .entity DB.empty {} = (DB.empty, 0) ∧
    (save_brand .ok DB.empty {}).2 ≠ 0 ∧
    (save_brand (.contacts 0) DB.empty {}).2 ≠ 0 := by
  have h := save_brand_fault_contract DB.empty {}
    ⟨by decide, by intro b hb; simp [DB.empty] at hb⟩
  exact ⟨h.1, h.2.1.1, (h.2.2 0).2.1⟩

/-- The store holding Acme with one e-mail contact row, used to exhibit
the merge-phase fault behavior. -/
def faultDemoDB : DB :=
  (save_brand .ok DB.empty { name := some "Acme", contacts := ["a@acme.id"] }).1

/-- C8 counterexample: a storage fault inside `_save_contacts` (here at
the first insert of the new batch) is swallowed by its internal
`except`: `save_brand` returns the nonzero entity id `1` — not the
claimed sentinel `0` — and commits a partial write in which Acme's old
contact row is already deleted and the new batch absent, so the contact
merge for the batch was neither completed nor skipped. -/
theorem save_brand_contact_fault_not_sentinel :
    faultDemoDB.contacts =
      [{ brand_id := 1, contact_type := "email", contact_value := "a@acme.id" }] ∧
    (save_brand (.contacts 0) faultDemoDB
      { name := some "Acme", contacts := ["+6281111111111"] }).2 = 1 ∧
    (save_brand (.contacts 0) faultDemoDB
      { name := some "Acme", contacts := ["+6281111111111"] }).1.contacts = [] := by
  decide

/-! ## Claim theorems: contact grouping -/

theorem groupStep_whatsapp_sub (g : GroupedContacts) (seen : List String) (c : CFContact) :
    ∀ v ∈ g.whatsapp, v ∈ (groupStep (g, seen) c).1.whatsapp := by
  intro v hv
  simp only [groupStep]
  split
  · exact hv
  · split
    · exact List.mem_append_left _ hv
    · split
      · exact hv
      · split
        · exact hv
        · split
          · exact hv
          · exact hv

theorem foldl_group_whatsapp_mono (l : List CFContact) :
    ∀ (g : GroupedContacts) (seen : List String) (v : String), v ∈ g.whatsapp →
      v ∈ ((l.foldl groupStep (g, seen)).1).whatsapp := by
  induction l with
  | nil => intro g seen v hv; exact hv
  | cons c cs ih =>
    intro g seen v hv
    simp only [List.foldl_cons]
    have h1 : v ∈ (groupStep (g, seen) c).1.whatsapp := groupStep_whatsapp_sub g seen c v hv
    have h2 := ih (groupStep (g, seen) c).1 (groupStep (g, seen) c).2 v h1
    simpa using h2

/-- The running invariant of the grouping loop: every value already in
the `whatsapp` or `phone` bucket has been recorded in `seen_values`,
and no value sits in both buckets. -/
def GroupInv (gs : GroupedContacts × List String) : Prop :=
  (∀ v ∈ gs.1.whatsapp, v ∈ gs.2) ∧ (∀ v ∈ gs.1.phone, v ∈ gs.2) ∧
    ∀ v, ¬(v ∈ gs.1.whatsapp ∧ v ∈ gs.1.phone)

theorem groupStep_inv {g : GroupedContacts} {seen : List String} (c : CFContact)
    (h : GroupInv (g, seen)) : GroupInv (groupStep (g, seen) c) := by
  obtain ⟨hw, hp, hd⟩ := h
  simp only [groupStep]
  split
  · exact ⟨hw, hp, hd⟩
  · rename_i hseen
    have hnot : c.value ∉ seen := by
      intro hmem
      exact hseen (by simpa [List.contains] using hmem)
    split
    · refine ⟨?_, ?_, ?_⟩
      · intro v hv
        rcases List.mem_append.mp hv with h | h
        · exact List.mem_cons_of_mem _ (hw v h)
        · rcases List.mem_singleton.mp h with rfl
          exact List.mem_cons_self _ _
      · intro v hv
        exact List.mem_cons_of_mem _ (hp v hv)
      · rintro v ⟨hv1, hv2⟩
        rcases List.mem_append.mp hv1 with h | h
        · exact hd v ⟨h, hv2⟩
        · rcases List.mem_singleton.mp h with rfl
          exact hnot (hp _ hv2)
    · split
      · refine ⟨?_, ?_, ?_⟩
        · intro v hv
          exact List.mem_cons_of_mem _ (hw v hv)
        · intro v hv
          rcases List.mem_append.mp hv with h | h
          · exact List.mem_cons_of_mem _ (hp v h)
          · rcases List.mem_singleton.mp h with rfl
            exact List.mem_cons_self _ _
        · rintro v ⟨hv1, hv2⟩
          rcases List.mem_append.mp hv2 with h | h
          · exact hd v ⟨hv1, h⟩
          · rcases List.mem_singleton.mp h with rfl
            exact hnot (hw _ hv1)
      · split
        · exact ⟨fun v hv => List.mem_cons_of_mem _ (hw v hv),
                 fun v hv => List.mem_cons_of_mem _ (hp v hv), hd⟩
        · split
          · exact ⟨fun v hv => List.mem_cons_of_mem _ (hw v hv),
                   fun v hv => List.mem_cons_of_mem _ (hp v hv), hd⟩
          · exact ⟨fun v hv => List.mem_cons_of_mem _ (hw v hv),
                   fun v hv => List.mem_cons_of_mem _ (hp v hv), hd⟩

theorem foldl_group_inv (l : List CFContact) :
    ∀ gs, GroupInv gs → GroupInv (l.foldl groupStep gs) := by
  induction l with
  | nil => intro gs h; exact h
  | cons c cs ih =>
    intro gs h
    obtain ⟨g, seen⟩ := gs
    simp only [List.foldl_cons]
    exact ih _ (groupStep_inv c h)

theorem groupStep_seen_cases (g : GroupedContacts) (seen : List String) (c : CFContact) :
    (groupStep (g, seen) c).2 = seen ∨ (groupStep (g, seen) c).2 = c.value :: seen := by
  simp only [groupStep]
  split
  · exact Or.inl rfl
  · split
    · exact Or.inr rfl
    · split
      · exact Or.inr rfl
      · split
        · exact Or.inr rfl
        · split
          · exact Or.inr rfl
          · exact Or.inr rfl

theorem foldl_group_whatsapp_mem (l : List CFContact) :
    ∀ (g : GroupedContacts) (seen : List String) (v : String),
      GroupInv (g, seen) → v ∉ seen →
      (∃ c ∈ l, c.value = v) →
      (∀ c ∈ l, c.value = v → c.type = "whatsapp" ∨
        (c.type = "phone" ∧ startsWithList v.data "+62".data = true)) →
      v ∈ ((l.foldl groupStep (g, seen)).1).whatsapp := by
  induction l with
  | nil =>
    rintro g seen v _ _ ⟨c, hc, _⟩ _
    cases hc
  | cons c cs ih =>
    intro g seen v hinv hv hex hty
    simp only [List.foldl_cons]
    by_cases hcv : c.value = v
    · have hnc : ¬ seen.contains c.value = true := by
        rw [hcv]
        intro hb
        exact hv (by simpa [List.contains] using hb)
      have hc1 := hty c (List.mem_cons_self _ _) hcv
      have hcond : (c.type == "whatsapp" || (c.type == "phone" &&
          startsWithList c.value.data "+62".data)) = true := by
        rcases hc1 with h | ⟨h1, h2⟩
        · simp [h]
        · rw [hcv]
          simp [h1, h2]
      have hstep : v ∈ (groupStep (g, seen) c).1.whatsapp := by
        simp only [groupStep]
        rw [if_neg hnc, if_pos hcond]
        simp [hcv]
      have h2 := foldl_group_whatsapp_mono cs (groupStep (g, seen) c).1
        (groupStep (g, seen) c).2 v hstep
      simpa using h2
    · have hinv2 : GroupInv (groupStep (g, seen) c) := groupStep_inv c hinv
      have hv2 : v ∉ (groupStep (g, seen) c).2 := by
        rcases groupStep_seen_cases g seen c with h | h <;> rw [h]
        · exact hv
        · intro hmem
          rcases List.mem_cons.mp hmem with rfl | hmem2
          · exact hcv rfl
          · exact hv hmem2
      have hex2 : ∃ c0 ∈ cs, c0.value = v := by
        rcases hex with ⟨c0, hc0, hval⟩
        rcases List.mem_cons.mp hc0 with rfl | hc0s
        · exact absurd hval hcv
        · exact ⟨c0, hc0s, hval⟩
      have hty2 : ∀ c0 ∈ cs, c0.value = v → c0.type = "whatsapp" ∨
          (c0.type = "phone" ∧ startsWithList v.data "+62".data = true) :=
        fun c0 hc0 hval => hty c0 (List.mem_cons_of_mem _ hc0) hval
      have h3 := ih (groupStep (g, seen) c).1 (groupStep (g, seen) c).2 v
        (by simpa using hinv2) hv2 hex2 hty2
      simpa using h3

theorem groupStep_phone_cases (g : GroupedContacts) (seen : List String) (c : CFContact) :
    ∀ v ∈ (groupStep (g, seen) c).1.phone,
      v ∈ g.phone ∨ (v = c.value ∧ c.type = "phone" ∧
        startsWithList c.value.data "+62".data = false) := by
  intro v hv
  simp only [groupStep] at hv
  split at hv
  · exact Or.inl hv
  · split at hv
    · exact Or.inl hv
    · split at hv
      · rename_i hnotwa hphone
        rcases List.mem_append.mp hv with h | h
        · exact Or.inl h
        · rcases List.mem_singleton.mp h with rfl
          have hty : c.type = "phone" := eq_of_beq hphone
          refine Or.inr ⟨rfl, hty, ?_⟩
          simp only [Bool.not_eq_true, Bool.or_eq_false_iff, Bool.and_eq_false_iff] at hnotwa
          rcases hnotwa.2 with h2 | h2
          · rw [hty] at h2
            simp at h2
          · exact h2
      · split at hv
        · exact Or.inl hv
        · split at hv
          · exact Or.inl hv
          · exact Or.inl hv

theorem foldl_group_phone_mem (l : List CFContact) :
    ∀ (g : GroupedContacts) (seen : List String) (v : String),
      v ∈ ((l.foldl groupStep (g, seen)).1).phone →
      v ∈ g.phone ∨ ∃ c ∈ l, c.value = v ∧ c.type = "phone" ∧
        startsWithList v.data "+62".data = false := by
  induction l with
  | nil => intro g seen v hv; exact Or.inl hv
  | cons c cs ih =>
    intro g seen v hv
    simp only [List.foldl_cons] at hv
    have hv2 := ih (groupStep (g, seen) c).1 (groupStep (g, seen) c).2 v (by simpa using hv)
    rcases hv2 with h | ⟨c0, hc0, h1, h2, h3⟩
    · rcases groupStep_phone_cases g seen c v h with h2 | ⟨rfl, ht, hs⟩
      · exact Or.inl h2
      · exact Or.inr ⟨c, List.mem_cons_self _ _, rfl, ht, hs⟩
    · exact Or.inr ⟨c0, List.mem_cons_of_mem _ hc0, h1, h2, h3⟩

/-- C7 (amended).  Bucket routing of the grouping phase, for every
candidate list and every canonical value: (i) no value appears in both
the `whatsapp` and the `phone` bucket; (ii) the `phone` bucket receives
only values carried by a phone-typed candidate whose value does not
start with `+62`; (iii) a value whose candidates are all WhatsApp-typed,
or phone-typed with a `+62` prefix, is placed in the `whatsapp` bucket
and not in `phone` — so a plain phone match whose canonical value
starts with `+62` (which the fallback cleaner guarantees) is routed to
`whatsapp`, contrary to the original claim. -/
theorem groupContacts_routing (l : List CFContact) (v : String) :
    ¬(v ∈ (groupContacts l).whatsapp ∧ v ∈ (groupContacts l).phone) ∧
    (v ∈ (groupContacts l).phone →
      ∃ c ∈ l, c.value = v ∧ c.type = "phone" ∧
        startsWithList v.data "+62".data = false) ∧
    ((∃ c ∈ l, c.value = v) →
      (∀ c ∈ l, c.value = v → c.type = "whatsapp" ∨
        (c.type = "phone" ∧ startsWithList v.data "+62".data = true)) →
      v ∈ (groupContacts l).whatsapp ∧ v ∉ (groupContacts l).phone) := by
  have hinv0 : GroupInv (({} : GroupedContacts), ([] : List String)) := by
    refine ⟨?_, ?_, ?_⟩
    · intro v hv
      simp at hv
    · intro v hv
      simp at hv
    · rintro v ⟨hv, _⟩
      simp at hv
  have hinv := foldl_group_inv l (({} : GroupedContacts), ([] : List String)) hinv0
  refine ⟨hinv.2.2 v, ?_, ?_⟩
  · intro hp
    rcases foldl_group_phone_mem l {} [] v hp with h | h
    · simp at h
    · exact h
  · intro hex hty
    have hmem := foldl_group_whatsapp_mem l {} [] v hinv0 (by simp) hex hty
    exact ⟨hmem, fun hph => hinv.2.2 v ⟨hmem, hph⟩⟩

/-- C7 witness: a WhatsApp-typed candidate lands in the `whatsapp`
bucket and not in `phone`. -/
theorem groupContacts_routing_witness :
    "+6281234567890" ∈ (groupContacts [⟨"whatsapp", "+6281234567890"⟩]).whatsapp ∧
    "+6281234567890" ∉ (groupContacts [⟨"whatsapp", "+6281234567890"⟩]).phone :=
  (groupContacts_routing [⟨"whatsapp", "+6281234567890"⟩] "+6281234567890").2.2
    (by decide) (by decide)

/-- C7 counterexample: a candidate matched only by a plain phone pattern
(the extractor types it `"phone"`; `"Telp: 0812-3456-7890"` carries no
WhatsApp context) normalizes to a `+62` value, which
`_parse_contact_results` routes into the `whatsapp` bucket, leaving the
`phone` bucket empty — the opposite of the claimed placement. -/
theorem groupContacts_plain_phone_misrouted :
    agent_clean_phone_number (fun _ => none) "Telp: 0812-3456-7890" =
      some "+6281234567890" ∧
    (groupContacts [⟨"phone", "+6281234567890"⟩]).phone = [] ∧
    (groupContacts [⟨"phone", "+6281234567890"⟩]).whatsapp = ["+6281234567890"] := by
  decide

end BeautyBot
